import Mathlib

/-!
Shallow embedding of the SOCKS5 proxy core of this repository
(`src/proxy/src`): the SOCKS5 protocol codec (`socks5/protocol.rs`),
the per-connection state machine and event handlers
(`handler/readable.rs`, `handler/writable.rs`), the interest and
cleanup utilities (`util.rs`), the DNS resolver (`dns.rs`), the
connection record (`connection.rs`) and the per-event dispatch of the
server loop (`server.rs`).

Bytes are modelled as `Nat`; socket addresses as an `Addr` record of
an IP (encoded as a `Nat`) and a port.  Operating-system effects
(socket reads and writes, `TcpStream::connect`, the DNS library calls
and the UDP send) are modelled as explicit oracle arguments; reactor
registrations are an association list from token to interest set, and
the pending-DNS map and connection table are association lists with
insert-overwrites semantics.  Time is a `Nat` of nanoseconds.
-/

/-- Interest set of a reactor registration (`mio::Interest`):
`READABLE`, `WRITABLE` or both. -/
structure Interests where
  readable : Bool
  writable : Bool
deriving DecidableEq, Repr

/-- `Interest::READABLE`. -/
def Interests.R : Interests := ⟨true, false⟩

/-- `Interest::WRITABLE`. -/
def Interests.W : Interests := ⟨false, true⟩

/-- `Interest::READABLE.add(Interest::WRITABLE)`. -/
def Interests.RW : Interests := ⟨true, true⟩

/-- A socket address (`std::net::SocketAddr`): the IP is abstracted to
a single `Nat` encoding, the port is a `Nat`. -/
structure Addr where
  ip : Nat
  port : Nat
deriving DecidableEq, Repr

/-- Encoding of an IPv4 address `a.b.c.d` as a single `Nat`. -/
def ipv4 (a b c d : Nat) : Nat :=
  ((a * 256 + b) * 256 + c) * 256 + d

/-- `ClientState` from `src/proxy/src/socks5/state.rs`. -/
inductive ClientState where
  | Handshake
  | Request
  | Resolving
  | Connecting
  | Tunneling
deriving DecidableEq, Repr

/-- `EndpointKind` from `src/proxy/src/connection.rs`. -/
inductive EndpointKind where
  | Client
  | Target
deriving DecidableEq, Repr

/-- `Connection` from `src/proxy/src/connection.rs`.  The two socket
handles are not modelled as values; the target socket and its token
(`target`/`target_token`, set and cleared together in the source) are
merged into the single optional field `target` holding the target
token. -/
structure Conn where
  clientToken : Nat
  target : Option Nat
  state : ClientState
  clientBuf : List Nat
  clientToTarget : List Nat
  targetToClient : List Nat
  clientClosed : Bool
  targetClosed : Bool
  requestedEndpoint : Option String
deriving DecidableEq, Repr

/-- `Connection::new` from `src/proxy/src/connection.rs`. -/
def Conn.new (clientToken : Nat) : Conn :=
  { clientToken := clientToken
    target := none
    state := ClientState.Handshake
    clientBuf := []
    clientToTarget := []
    targetToClient := []
    clientClosed := false
    targetClosed := false
    requestedEndpoint := none }

/-- `Connection::should_close` from `src/proxy/src/connection.rs`. -/
def Conn.should_close (c : Conn) : Bool :=
  (c.clientClosed && c.targetToClient.isEmpty)
    || (c.targetClosed && c.clientToTarget.isEmpty)

/-- Result of a non-blocking `read` on a socket: `ok bs` is `Ok(n)`
returning the bytes `bs` (with `bs = []` for `Ok(0)`, end of stream),
`wouldBlock` is `Err(WouldBlock)`, and `fail` any other error. -/
inductive ReadRes where
  | ok (bs : List Nat)
  | wouldBlock
  | fail
deriving DecidableEq, Repr

/-- Result of a non-blocking `write` on a socket: `wrote n` is `Ok(n)`
(a partial write of the first `n` bytes), `wouldBlock` is
`Err(WouldBlock)`, and `fail` any other error. -/
inductive WriteRes where
  | wrote (n : Nat)
  | wouldBlock
  | fail
deriving DecidableEq, Repr

/-- Association-list lookup for the reactor registry, token maps and
connection table. -/
def alookup {β : Type} (k : Nat) : List (Nat × β) → Option β
  | [] => none
  | p :: rest => if p.1 = k then some p.2 else alookup k rest

/-- Association-list insert-or-overwrite (`HashMap::insert`). -/
def aset {β : Type} (k : Nat) (v : β) (m : List (Nat × β)) : List (Nat × β) :=
  (k, v) :: m.filter (fun p => p.1 ≠ k)

/-- Association-list removal (`HashMap::remove` / `deregister`). -/
def aremove {β : Type} (k : Nat) (m : List (Nat × β)) : List (Nat × β) :=
  m.filter (fun p => p.1 ≠ k)

/- ## SOCKS5 protocol codec (`src/proxy/src/socks5/protocol.rs`) -/

/-- `create_success_response` from `protocol.rs`:
`[VER, REP_SUCCESS, 0, ATYP_IPV4, 0,0,0,0, 0,0]`. -/
def create_success_response : List Nat := [5, 0, 0, 1, 0, 0, 0, 0, 0, 0]

/-- `create_refused_response` from `protocol.rs`:
`[VER, REP_CONN_REFUSED, 0, ATYP_IPV4, 0,0,0,0, 0,0]`. -/
def create_refused_response : List Nat := [5, 5, 0, 1, 0, 0, 0, 0, 0, 0]

/-- `create_auth_response` from `protocol.rs`: `[VER, NO_AUTH]`. -/
def create_auth_response : List Nat := [5, 0]

/-- Decoding of request bytes into a string
(`String::from_utf8_lossy`, restricted to the ASCII range where both
agree). -/
def asciiDecode (bs : List Nat) : String :=
  String.mk (bs.map Char.ofNat)

/-- Rendering of a `u16` port next to a host, `format!("{}:{}", h, p)`. -/
def displayHostPort (h : String) (p : Nat) : String :=
  h ++ ":" ++ toString p

namespace Protocol

/-- `RequestInfo` exactly as defined in
`src/proxy/src/socks5/protocol.rs` (lines 14–18): a struct carrying an
already-resolved socket address and its display string.  Note that the
caller `handle_request` in `src/proxy/src/handler/readable.rs` instead
destructures enum variants `RequestInfo::Resolved` and
`RequestInfo::NeedsResolution`, which this type does not have. -/
structure RequestInfo where
  resolved : Addr
  display : String
deriving DecidableEq, Repr

/-- `parse_ipv4_request` from `protocol.rs` (lines 47–71).  The
`addr.parse()` of the string `"a.b.c.d:p"` succeeds exactly when each
rendered octet is a byte value, which the guard models. -/
def parse_ipv4_request (buf : List Nat) : Except String (Option RequestInfo) :=
  if buf.length < 10 then Except.ok none
  else
    let a := buf.getD 4 0
    let b := buf.getD 5 0
    let c := buf.getD 6 0
    let d := buf.getD 7 0
    let port := buf.getD 8 0 * 256 + buf.getD 9 0
    let display := toString a ++ "." ++ toString b ++ "." ++ toString c
      ++ "." ++ toString d ++ ":" ++ toString port
    if a < 256 ∧ b < 256 ∧ c < 256 ∧ d < 256 then
      Except.ok (some { resolved := ⟨ipv4 a b c d, port⟩, display := display })
    else Except.error "Invalid IPv4 address"

/-- `parse_domain_request` from `protocol.rs` (lines 73–97).  The call
`addr.to_socket_addrs()` performs a synchronous, blocking name lookup
through the operating system; it is modelled by the oracle `osResolve`
giving, for the string `"domain:port"`, either an I/O error or the
(possibly empty) list of resolved addresses. -/
def parse_domain_request (osResolve : String → Except String (List Addr))
    (buf : List Nat) : Except String (Option RequestInfo) :=
  if buf.length < 5 then Except.ok none
  else
    let len := buf.getD 4 0
    if buf.length < 5 + len + 2 then Except.ok none
    else
      let domain := asciiDecode ((buf.drop 5).take len)
      let port := buf.getD (5 + len) 0 * 256 + buf.getD (5 + len + 1) 0
      let addr := displayHostPort domain port
      match osResolve addr with
      | Except.error e => Except.error e
      | Except.ok addrs =>
        match addrs with
        | [] => Except.error "No address resolved"
        | resolved :: _ => Except.ok (some { resolved := resolved, display := addr })

/-- `parse_request` from `protocol.rs` (lines 20–45): version, command
and address-type checks, then dispatch on ATYP. -/
def parse_request (osResolve : String → Except String (List Addr))
    (buf : List Nat) : Except String (Option RequestInfo) :=
  if buf.length < 4 then Except.ok none
  else
    let version := buf.getD 0 0
    let cmd := buf.getD 1 0
    let atyp := buf.getD 3 0
    if version ≠ 5 then Except.error "Invalid version"
    else if cmd ≠ 1 then Except.error "Only CONNECT supported"
    else if atyp = 1 then parse_ipv4_request buf
    else if atyp = 3 then parse_domain_request osResolve buf
    else Except.error "Unsupported address type"

end Protocol

namespace SpecProto

/-- Modelled from the spec: the request parser's result as consumed by
`handle_request` in `src/proxy/src/handler/readable.rs` — an enum with
a `Resolved {addr, display}` variant for literal IPv4 targets and a
`NeedsResolution {domain, port}` variant for domain targets.  The
repository's `protocol.rs` instead defines `RequestInfo` as a struct
(see `Protocol.RequestInfo`), conflicting with this caller. -/
inductive RequestInfo where
  | Resolved (addr : Addr) (display : String)
  | NeedsResolution (domain : String) (port : Nat)
deriving DecidableEq, Repr

/-- Modelled from the spec: request parsing for `ATYP == 0x01` — "the
address is 4 bytes of IPv4 plus 2 bytes port; yield `Resolved{addr,
display="A.B.C.D:P"}`"; short input is incomplete.  Length guards
follow `parse_ipv4_request` in `protocol.rs` (lines 47–50). -/
def parse_ipv4_request (buf : List Nat) : Except String (Option RequestInfo) :=
  if buf.length < 10 then Except.ok none
  else
    let a := buf.getD 4 0
    let b := buf.getD 5 0
    let c := buf.getD 6 0
    let d := buf.getD 7 0
    let port := buf.getD 8 0 * 256 + buf.getD 9 0
    let display := toString a ++ "." ++ toString b ++ "." ++ toString c
      ++ "." ++ toString d ++ ":" ++ toString port
    Except.ok (some (RequestInfo.Resolved ⟨ipv4 a b c d, port⟩ display))

/-- Modelled from the spec: request parsing for `ATYP == 0x03` — "the
address is a length-prefixed domain plus 2 bytes port; yield
`NeedsResolution{domain, port}`"; short input is incomplete.  Length
guards follow `parse_domain_request` in `protocol.rs` (lines 74–79). -/
def parse_domain_request (buf : List Nat) : Except String (Option RequestInfo) :=
  if buf.length < 5 then Except.ok none
  else
    let len := buf.getD 4 0
    if buf.length < 5 + len + 2 then Except.ok none
    else
      let domain := asciiDecode ((buf.drop 5).take len)
      let port := buf.getD (5 + len) 0 * 256 + buf.getD (5 + len + 1) 0
      Except.ok (some (RequestInfo.NeedsResolution domain port))

/-- Modelled from the spec: the request parser used by
`handle_request`.  The header validation (need 4 bytes; `VER == 0x05`;
`CMD == 0x01`; `ATYP ∈ {0x01, 0x03}`; errors otherwise) is translated
from `parse_request` in `protocol.rs` (lines 20–45), which both
versions of the parser share. -/
def parse_request (buf : List Nat) : Except String (Option RequestInfo) :=
  if buf.length < 4 then Except.ok none
  else
    let version := buf.getD 0 0
    let cmd := buf.getD 1 0
    let atyp := buf.getD 3 0
    if version ≠ 5 then Except.error "Invalid version"
    else if cmd ≠ 1 then Except.error "Only CONNECT supported"
    else if atyp = 1 then parse_ipv4_request buf
    else if atyp = 3 then parse_domain_request buf
    else Except.error "Unsupported address type"

end SpecProto

/- ## DNS resolver (`src/proxy/src/dns.rs`) -/

namespace Dns

/-- `DNS_TIMEOUT` from `dns.rs` line 15: `Duration::from_secs(5)`,
here in nanoseconds. -/
def DNS_TIMEOUT : Nat := 5000000000

/-- `DnsRequest` from `dns.rs`; the `Instant` timestamp is a `Nat` of
nanoseconds. -/
structure DnsRequest where
  domain : String
  port : Nat
  connId : Nat
  timestamp : Nat
deriving DecidableEq, Repr

/-- `DnsEvent` from `dns.rs`. -/
inductive DnsEvent where
  | Resolved (connId : Nat) (resolvedAddr : Addr) (display : String)
  | Failed (connId : Nat) (domain : String) (reason : String)
deriving DecidableEq, Repr

/-- `DnsResolver` from `dns.rs` (without the UDP socket handle):
resolver address, pending-request map keyed by 16-bit query id, and
the next query id. -/
structure DnsResolver where
  resolverAddr : Addr
  pending : List (Nat × DnsRequest)
  nextQueryId : Nat
deriving DecidableEq, Repr

/-- `DnsResolver::resolve` from `dns.rs` (lines 79–132).  The query id
is taken and incremented (with 16-bit wrap-around) first; the three
fallible external calls — `Name::from_utf8`, `Message::to_bytes` and
`UdpSocket::send_to` — are modelled by the oracles `nameOk`,
`encodeOk` and `sendOk`; only after all three succeed is the pending
request inserted, stamped with the current time `now`. -/
def resolve (r : DnsResolver) (domain : String) (port connId : Nat)
    (nameOk encodeOk sendOk : Bool) (now : Nat) :
    DnsResolver × Except String Nat :=
  let queryId := r.nextQueryId
  let r1 := { r with nextQueryId := (r.nextQueryId + 1) % 65536 }
  if !nameOk then (r1, Except.error "Invalid domain name")
  else if !encodeOk then (r1, Except.error "Failed to encode DNS message")
  else if !sendOk then (r1, Except.error "Failed to send DNS query")
  else
    ({ r1 with
        pending := aset queryId ⟨domain, port, connId, now⟩ r1.pending },
      Except.ok queryId)

/-- A resource-record payload as inspected by `handle_responses`: an A
record with an IPv4 address, or any other record type. -/
inductive RData where
  | A (ip : Nat)
  | other
deriving DecidableEq, Repr

/-- The part of a decoded DNS message that `handle_responses` reads:
its id and the answer records. -/
structure DnsMsg where
  msgId : Nat
  answers : List RData
deriving DecidableEq, Repr

/-- One received UDP datagram: its source address and the result of
`Message::from_bytes` (`none` when malformed). -/
structure Datagram where
  source : Addr
  decoded : Option DnsMsg
deriving DecidableEq, Repr

/-- The scan in `handle_responses` (lines 165–171): the first answer
that is an A record. -/
def firstA : List RData → Option Nat
  | [] => none
  | RData.A ip :: _ => some ip
  | RData.other :: rest => firstA rest

/-- One iteration of the receive loop in `DnsResolver::handle_responses`
(`dns.rs` lines 140–198), processing a single datagram: drop it if the
source is not the configured resolver, if it does not decode, or if its
id is not pending; otherwise remove the pending entry and emit exactly
one event. -/
def handleDatagram (r : DnsResolver) (d : Datagram) :
    DnsResolver × List DnsEvent :=
  if d.source ≠ r.resolverAddr then (r, [])
  else
    match d.decoded with
    | none => (r, [])
    | some msg =>
      match alookup msg.msgId r.pending with
      | none => (r, [])
      | some req =>
        let r1 := { r with pending := aremove msg.msgId r.pending }
        match firstA msg.answers with
        | some ip =>
          (r1, [DnsEvent.Resolved req.connId ⟨ip, req.port⟩
                  (displayHostPort req.domain req.port)])
        | none =>
          (r1, [DnsEvent.Failed req.connId req.domain
                  "No A record in response"])

/-- `DnsResolver::handle_responses` from `dns.rs` (lines 134–209): the
receive loop over the datagrams available before would-block, collecting
events in order. -/
def handle_responses (r : DnsResolver) :
    List Datagram → DnsResolver × List DnsEvent
  | [] => (r, [])
  | d :: rest =>
    let p := handleDatagram r d
    let q := handle_responses p.1 rest
    (q.1, p.2 ++ q.2)

/-- The `retain` traversal inside `DnsResolver::cleanup_expired`
(`dns.rs` lines 214–229): keep a pending request iff strictly less
than `DNS_TIMEOUT` has elapsed since its timestamp, emitting a timeout
`Failed` event for each dropped request, in traversal order. -/
def cleanup_expired_go (now : Nat) :
    List (Nat × DnsRequest) → List (Nat × DnsRequest) × List DnsEvent
  | [] => ([], [])
  | p :: rest =>
    let q := cleanup_expired_go now rest
    if DNS_TIMEOUT ≤ now - p.2.timestamp then
      (q.1, DnsEvent.Failed p.2.connId p.2.domain "DNS query timed out" :: q.2)
    else (p :: q.1, q.2)

/-- `DnsResolver::cleanup_expired` from `dns.rs` (lines 211–231). -/
def cleanup_expired (r : DnsResolver) (now : Nat) :
    DnsResolver × List DnsEvent :=
  let q := cleanup_expired_go now r.pending
  ({ r with pending := q.1 }, q.2)

end Dns

/- ## Shared mutable server context and handler results -/

/-- The server-owned context threaded through the handlers: the
reactor registrations (token → interests), the token index
(token → (connection id, endpoint kind)), the next fresh token, and
the DNS resolver state (`server.rs` fields `poll`, `token_map`,
`next_token`, `dns_resolver`). -/
structure Sys where
  registry : List (Nat × Interests)
  tokenMap : List (Nat × Nat × EndpointKind)
  nextToken : Nat
  dns : Dns.DnsResolver
deriving DecidableEq, Repr

/-- Result of one handler call: the updated connection and context,
the bytes written to the client socket and to the target socket during
the call, and whether the handler returned `Ok` (`false` = `Err`,
which makes the event loop tear the connection down). -/
structure HOut where
  conn : Conn
  sys : Sys
  clientWrites : List Nat
  targetWrites : List Nat
  ok : Bool
deriving DecidableEq, Repr

/-- Oracles for one readable-handler call: the outcome of the single
`read`, of any `write_all`, of `TcpStream::connect`, the three
fallible steps inside `Dns.resolve`, and the current time. -/
structure ROracles where
  readRes : ReadRes
  writeAllOk : Bool
  connectOk : Bool
  nameOk : Bool
  encodeOk : Bool
  sendOk : Bool
  now : Nat
deriving DecidableEq, Repr

/-- Oracles for one writable-handler call: the outcome of the single
partial `write` and of any `write_all`. -/
structure WOracles where
  writeRes : WriteRes
  writeAllOk : Bool
deriving DecidableEq, Repr

/- ## Readable handlers (`src/proxy/src/handler/readable.rs`) -/

/-- `handle_handshake` from `readable.rs` (lines 47–80): accumulate
read bytes; once at least 2 bytes and then at least `2 + nmethods`
bytes are present, check the version byte, `write_all` the two-byte
auth response, clear the buffer and move to `Request`. -/
def handle_handshake (conn : Conn) (sys : Sys) (o : ROracles) : HOut :=
  match o.readRes with
  | ReadRes.fail => ⟨conn, sys, [], [], false⟩
  | ReadRes.wouldBlock => ⟨conn, sys, [], [], true⟩
  | ReadRes.ok bs =>
    if bs.isEmpty then ⟨{ conn with clientClosed := true }, sys, [], [], true⟩
    else
      let conn1 := { conn with clientBuf := conn.clientBuf ++ bs }
      if conn1.clientBuf.length ≥ 2 then
        let nmethods := conn1.clientBuf.getD 1 0
        if conn1.clientBuf.length ≥ 2 + nmethods then
          if conn1.clientBuf.getD 0 0 ≠ 5 then ⟨conn1, sys, [], [], false⟩
          else if o.writeAllOk then
            ⟨{ conn1 with clientBuf := [], state := ClientState.Request },
              sys, create_auth_response, [], true⟩
          else ⟨conn1, sys, [], [], false⟩
        else ⟨conn1, sys, [], [], true⟩
      else ⟨conn1, sys, [], [], true⟩

/-- `handle_request` from `readable.rs` (lines 82–157): accumulate
read bytes and run the request parser.  A parse error propagates
(`Err`, no bytes written).  A `Resolved` request starts the
non-blocking connect, registers the target token with `WRITABLE`
interest, records it in the token index and enters `Connecting`; a
failed connect writes the refused reply (best effort via `write_all`)
and returns `Err`.  A `NeedsResolution` request calls
`Dns.resolve`; on success the connection enters `Resolving`, on
failure the refused reply is written and the error propagates. -/
def handle_request (conn : Conn) (connId : Nat) (sys : Sys) (o : ROracles) :
    HOut :=
  match o.readRes with
  | ReadRes.fail => ⟨conn, sys, [], [], false⟩
  | ReadRes.wouldBlock => ⟨conn, sys, [], [], true⟩
  | ReadRes.ok bs =>
    if bs.isEmpty then ⟨{ conn with clientClosed := true }, sys, [], [], true⟩
    else
      let conn1 := { conn with clientBuf := conn.clientBuf ++ bs }
      match SpecProto.parse_request conn1.clientBuf with
      | Except.error _ => ⟨conn1, sys, [], [], false⟩
      | Except.ok none => ⟨conn1, sys, [], [], true⟩
      | Except.ok (some (SpecProto.RequestInfo.Resolved _ display)) =>
        let conn2 := { conn1 with requestedEndpoint := some display }
        if o.connectOk then
          let targetToken := sys.nextToken
          let sys1 := { sys with
            nextToken := sys.nextToken + 1
            registry := aset targetToken Interests.W sys.registry
            tokenMap := aset targetToken (connId, EndpointKind.Target) sys.tokenMap }
          ⟨{ conn2 with target := some targetToken, state := ClientState.Connecting, clientBuf := [] },
            sys1, [], [], true⟩
        else if o.writeAllOk then ⟨conn2, sys, create_refused_response, [], false⟩
        else ⟨conn2, sys, [], [], false⟩
      | Except.ok (some (SpecProto.RequestInfo.NeedsResolution domain port)) =>
        let p := Dns.resolve sys.dns domain port connId o.nameOk o.encodeOk o.sendOk o.now
        let sys1 := { sys with dns := p.1 }
        match p.2 with
        | Except.ok _ =>
          ⟨{ conn1 with state := ClientState.Resolving, clientBuf := [] },
            sys1, [], [], true⟩
        | Except.error _ =>
          if o.writeAllOk then ⟨conn1, sys1, create_refused_response, [], false⟩
          else ⟨conn1, sys1, [], [], false⟩

/-- `handle_client_data` from `readable.rs` (lines 159–184): in
`Tunneling`, append the read bytes to the client→target buffer and
reregister the target (when present) with `READABLE | WRITABLE`; a
zero read marks the client closed and shuts down the target's write
half (the shutdown has no modelled effect). -/
def handle_client_data (conn : Conn) (sys : Sys) (o : ROracles) : HOut :=
  match o.readRes with
  | ReadRes.fail => ⟨conn, sys, [], [], false⟩
  | ReadRes.wouldBlock => ⟨conn, sys, [], [], true⟩
  | ReadRes.ok bs =>
    if bs.isEmpty then ⟨{ conn with clientClosed := true }, sys, [], [], true⟩
    else
      let conn1 := { conn with clientToTarget := conn.clientToTarget ++ bs }
      match conn1.target with
      | some tt =>
        ⟨conn1, { sys with registry := aset tt Interests.RW sys.registry },
          [], [], true⟩
      | none => ⟨conn1, sys, [], [], true⟩

/-- `handle_target_readable` from `readable.rs` (lines 186–207): when
a target exists, append the read bytes to the target→client buffer and
reregister the client with `READABLE | WRITABLE`; a zero read marks
the target closed and shuts down the client's write half (no modelled
effect). -/
def handle_target_readable (conn : Conn) (sys : Sys) (o : ROracles) : HOut :=
  match conn.target with
  | none => ⟨conn, sys, [], [], true⟩
  | some _ =>
    match o.readRes with
    | ReadRes.fail => ⟨conn, sys, [], [], false⟩
    | ReadRes.wouldBlock => ⟨conn, sys, [], [], true⟩
    | ReadRes.ok bs =>
      if bs.isEmpty then ⟨{ conn with targetClosed := true }, sys, [], [], true⟩
      else
        let conn1 := { conn with targetToClient := conn.targetToClient ++ bs }
        ⟨conn1,
          { sys with registry := aset conn.clientToken Interests.RW sys.registry },
          [], [], true⟩

/-- `handle_client_readable` from `readable.rs` (lines 30–45):
dispatch on the connection state (`Connecting` and `Resolving` are
no-ops for client readability). -/
def handle_client_readable (conn : Conn) (connId : Nat) (sys : Sys)
    (o : ROracles) : HOut :=
  match conn.state with
  | ClientState.Handshake => handle_handshake conn sys o
  | ClientState.Request => handle_request conn connId sys o
  | ClientState.Tunneling => handle_client_data conn sys o
  | ClientState.Connecting => ⟨conn, sys, [], [], true⟩
  | ClientState.Resolving => ⟨conn, sys, [], [], true⟩

/-- `handle_readable` from `readable.rs` (lines 13–28): dispatch on
the endpoint kind. -/
def handle_readable (conn : Conn) (connId : Nat) (endpoint : EndpointKind)
    (sys : Sys) (o : ROracles) : HOut :=
  match endpoint with
  | EndpointKind.Client => handle_client_readable conn connId sys o
  | EndpointKind.Target => handle_target_readable conn sys o

/- ## Interest policy and cleanup (`src/proxy/src/util.rs`) -/

/-- The client interest computed by `update_interests` in `util.rs`
(lines 10–13): `READABLE`, plus `WRITABLE` iff the target→client
buffer is non-empty. -/
def policyClientInterest (c : Conn) : Interests :=
  ⟨true, !c.targetToClient.isEmpty⟩

/-- The target interest computed by `update_interests` in `util.rs`
(lines 18–21): `READABLE`, plus `WRITABLE` iff the state is
`Connecting` or the client→target buffer is non-empty. -/
def policyTargetInterest (c : Conn) : Interests :=
  ⟨true,
    (match c.state with | ClientState.Connecting => true | _ => false)
      || !c.clientToTarget.isEmpty⟩

/-- `update_interests` from `util.rs` (lines 9–25): reregister the
client with its derived interest, and the target (when present) with
its derived interest. -/
def update_interests (conn : Conn) (registry : List (Nat × Interests)) :
    List (Nat × Interests) :=
  let registry1 := aset conn.clientToken (policyClientInterest conn) registry
  match conn.target with
  | some tt => aset tt (policyTargetInterest conn) registry1
  | none => registry1

/-- `cleanup_connection` from `util.rs` (lines 27–52): remove the
connection record (when present) from the table, deregister its client
socket and its target socket (when present), and in every case retain
only token-index entries whose connection id differs. -/
def cleanup_connection (connId : Nat) (sys : Sys)
    (conns : List (Nat × Conn)) : Sys × List (Nat × Conn) :=
  match alookup connId conns with
  | some conn =>
    let conns1 := aremove connId conns
    let registry1 := aremove conn.clientToken sys.registry
    let registry2 :=
      match conn.target with
      | some tt => aremove tt registry1
      | none => registry1
    ({ sys with registry := registry2, tokenMap := sys.tokenMap.filter (fun e => e.2.1 ≠ connId) }, conns1)
  | none =>
    ({ sys with tokenMap := sys.tokenMap.filter (fun e => e.2.1 ≠ connId) },
      conns)

/- ## Writable handlers (`src/proxy/src/handler/writable.rs`) -/

/-- `handle_client_writable` from `writable.rs` (lines 24–37): in
`Tunneling` with a non-empty target→client buffer, one partial write
drains the written prefix; would-block is not an error.  Returns the
updated connection, the bytes written to the client, and the `Ok`
flag. -/
def handle_client_writable (conn : Conn) (o : WOracles) :
    Conn × List Nat × Bool :=
  match conn.state with
  | ClientState.Tunneling =>
    if !conn.targetToClient.isEmpty then
      match o.writeRes with
      | WriteRes.wrote n =>
        ({ conn with targetToClient := conn.targetToClient.drop n },
          conn.targetToClient.take n, true)
      | WriteRes.wouldBlock => (conn, [], true)
      | WriteRes.fail => (conn, [], false)
    else (conn, [], true)
  | _ => (conn, [], true)

/-- `handle_target_writable` from `writable.rs` (lines 39–75): in
`Connecting`, `write_all` the success reply, enter `Tunneling` and
reregister both sockets `READABLE`; in `Tunneling` with a target and a
non-empty client→target buffer, one partial write drains the written
prefix; would-block is not an error. -/
def handle_target_writable (conn : Conn) (sys : Sys) (o : WOracles) : HOut :=
  match conn.state with
  | ClientState.Connecting =>
    if o.writeAllOk then
      let conn1 := { conn with state := ClientState.Tunneling }
      let registry1 := aset conn1.clientToken Interests.R sys.registry
      let registry2 :=
        match conn1.target with
        | some tt => aset tt Interests.R registry1
        | none => registry1
      ⟨conn1, { sys with registry := registry2 },
        create_success_response, [], true⟩
    else ⟨conn, sys, [], [], false⟩
  | ClientState.Tunneling =>
    match conn.target with
    | some _ =>
      if !conn.clientToTarget.isEmpty then
        match o.writeRes with
        | WriteRes.wrote n =>
          ⟨{ conn with clientToTarget := conn.clientToTarget.drop n }, sys,
            [], conn.clientToTarget.take n, true⟩
        | WriteRes.wouldBlock => ⟨conn, sys, [], [], true⟩
        | WriteRes.fail => ⟨conn, sys, [], [], false⟩
      else ⟨conn, sys, [], [], true⟩
    | none => ⟨conn, sys, [], [], true⟩
  | _ => ⟨conn, sys, [], [], true⟩

/-- `handle_writable` from `writable.rs` (lines 10–22): run the
endpoint's writable handler and, when it returns `Ok`, apply
`update_interests`. -/
def handle_writable (conn : Conn) (endpoint : EndpointKind) (sys : Sys)
    (o : WOracles) : HOut :=
  let step : HOut :=
    match endpoint with
    | EndpointKind.Client =>
      let p := handle_client_writable conn o
      ⟨p.1, sys, p.2.1, [], p.2.2⟩
    | EndpointKind.Target => handle_target_writable conn sys o
  if step.ok then
    { step with
        sys := { step.sys with
          registry := update_interests step.conn step.sys.registry } }
  else step

/- ## Per-event dispatch (`src/proxy/src/server.rs`) -/

/-- Result of `Server::handle_connection_event`: updated context and
connection table, plus the bytes written to each socket while handling
the event. -/
structure EvOut where
  sys : Sys
  conns : List (Nat × Conn)
  clientWrites : List Nat
  targetWrites : List Nat
deriving DecidableEq, Repr

/-- The `if event.is_readable()` arm of `handle_connection_event`
(`server.rs` lines 201–215): run the readable handler when the event
is readable, otherwise leave everything unchanged with `Ok`. -/
def readPhase (conn : Conn) (connId : Nat) (endpoint : EndpointKind)
    (sys : Sys) (ro : ROracles) (isReadable : Bool) : HOut :=
  if isReadable then handle_readable conn connId endpoint sys ro
  else ⟨conn, sys, [], [], true⟩

/-- The `if event.is_writable()` arm of `handle_connection_event`
(`server.rs` lines 217–221): run the writable handler on the state
left by the readable arm when the event is writable. -/
def writePhase (r : HOut) (endpoint : EndpointKind) (wo : WOracles)
    (isWritable : Bool) : HOut :=
  if isWritable then handle_writable r.conn endpoint r.sys wo
  else ⟨r.conn, r.sys, [], [], true⟩

/-- `Server::handle_connection_event` from `server.rs` (lines
196–242): route the token through the token index to its connection;
run the readable arm and then the writable arm (an `Err` from either
marks the connection for closure); afterwards, if the connection's
`should_close` predicate holds, mark it for closure; finally run
`cleanup_connection` when marked. -/
def handle_connection_event (sys : Sys) (conns : List (Nat × Conn))
    (token : Nat) (isReadable isWritable : Bool) (ro : ROracles)
    (wo : WOracles) : EvOut :=
  match alookup token sys.tokenMap with
  | none => ⟨sys, conns, [], []⟩
  | some (connId, endpoint) =>
    match alookup connId conns with
    | none => ⟨sys, conns, [], []⟩
    | some conn =>
      let r := readPhase conn connId endpoint sys ro isReadable
      let w := writePhase r endpoint wo isWritable
      let close := !r.ok || !w.ok || Conn.should_close w.conn
      let conns1 := aset connId w.conn conns
      if close then
        let q := cleanup_connection connId w.sys conns1
        ⟨q.1, q.2, r.clientWrites ++ w.clientWrites,
          r.targetWrites ++ w.targetWrites⟩
      else
        ⟨w.sys, conns1, r.clientWrites ++ w.clientWrites,
          r.targetWrites ++ w.targetWrites⟩

/- ## Relay traces (replaying the Tunneling handlers) -/

/-- One event of a single relay direction during `Tunneling`: a read
returning `bs` from the producing socket, or one write outcome on the
consuming socket. -/
inductive RelayEv where
  | read (bs : List Nat)
  | write (w : WriteRes)
deriving DecidableEq, Repr

/-- The bytes read over a sequence of relay events, in order. -/
def relayReads : List RelayEv → List Nat
  | [] => []
  | RelayEv.read bs :: evs => bs ++ relayReads evs
  | RelayEv.write _ :: evs => relayReads evs

/-- Replay of a sequence of events of the target→client direction:
reads run `handle_target_readable`, writes run
`handle_client_writable`; the second component collects the bytes
delivered to the client socket, in order. -/
def relay_t2c_run (wa : Bool) : Conn → Sys → List RelayEv → Conn × List Nat
  | conn, _, [] => (conn, [])
  | conn, sys, RelayEv.read bs :: evs =>
    let r := handle_target_readable conn sys
      ⟨ReadRes.ok bs, wa, wa, wa, wa, wa, 0⟩
    relay_t2c_run wa r.conn r.sys evs
  | conn, sys, RelayEv.write w :: evs =>
    let p := handle_client_writable conn ⟨w, wa⟩
    let q := relay_t2c_run wa p.1 sys evs
    (q.1, p.2.1 ++ q.2)

/-- Replay of the client→target direction: reads run
`handle_client_data`, writes run `handle_target_writable`; the second
component collects the bytes delivered to the target socket, in
order. -/
def relay_c2t_run (wa : Bool) : Conn → Sys → List RelayEv → Conn × List Nat
  | conn, _, [] => (conn, [])
  | conn, sys, RelayEv.read bs :: evs =>
    let r := handle_client_data conn sys
      ⟨ReadRes.ok bs, wa, wa, wa, wa, wa, 0⟩
    relay_c2t_run wa r.conn r.sys evs
  | conn, sys, RelayEv.write w :: evs =>
    let p := handle_target_writable conn sys ⟨w, wa⟩
    let q := relay_c2t_run wa p.conn p.sys evs
    (q.1, p.targetWrites ++ q.2)

/- ## Helper lemmas on association lists -/

theorem alookup_filter_ne {β : Type} (k k' : Nat) (h : k ≠ k')
    (m : List (Nat × β)) :
    alookup k (m.filter (fun p => p.1 ≠ k')) = alookup k m := by
  induction m with
  | nil => rfl
  | cons p rest ih =>
    by_cases h1 : p.1 = k'
    · have h2 : ¬ p.1 = k := fun hk => h (by rw [← hk, h1])
      simp only [List.filter_cons, decide_not] at ih ⊢
      simp [h1, h2, ih, alookup, Ne.symm h]
    · by_cases h2 : p.1 = k
      · simp only [List.filter_cons, decide_not] at ih ⊢
        simp [h1, h2, alookup, h]
      · simp only [List.filter_cons, decide_not] at ih ⊢
        simp [h1, h2, ih, alookup]

theorem alookup_aset_self {β : Type} (k : Nat) (v : β) (m : List (Nat × β)) :
    alookup k (aset k v m) = some v := by
  simp [alookup, aset]

theorem alookup_aset_ne {β : Type} (k k' : Nat) (v : β) (h : k ≠ k')
    (m : List (Nat × β)) :
    alookup k (aset k' v m) = alookup k m := by
  simp only [aset, alookup]
  rw [if_neg (fun hk => h hk.symm)]
  exact alookup_filter_ne k k' h m

theorem alookup_aremove_self {β : Type} (k : Nat) (m : List (Nat × β)) :
    alookup k (aremove k m) = none := by
  induction m with
  | nil => rfl
  | cons p rest ih =>
    by_cases h1 : p.1 = k
    · simpa [aremove, List.filter_cons, h1, alookup] using ih
    · simpa [aremove, List.filter_cons, h1, alookup] using ih

theorem alookup_aremove_ne {β : Type} (k k' : Nat) (h : k ≠ k')
    (m : List (Nat × β)) :
    alookup k (aremove k' m) = alookup k m :=
  alookup_filter_ne k k' h m

theorem alookup_mem {β : Type} {k : Nat} {v : β} :
    ∀ {m : List (Nat × β)}, alookup k m = some v → (k, v) ∈ m := by
  intro m
  induction m with
  | nil => intro h; cases h
  | cons p rest ih =>
    intro h
    by_cases h1 : p.1 = k
    · simp [alookup, h1] at h
      subst h
      rw [← h1]
      exact List.mem_cons_self p rest
    · simp [alookup, h1] at h
      exact List.mem_cons_of_mem p (ih h)

/- ## Claim theorems -/

/-- C1: the claim says that for a complete length-prefixed domain
request (`ATYP == 0x03`) the request parser yields
`NeedsResolution{domain, port}` and performs no synchronous name
resolution.  The parser actually defined in
`src/proxy/src/socks5/protocol.rs` resolves the domain synchronously
via `to_socket_addrs`: on the complete domain request
`05 01 00 03 01 'a' 00 50` its result is dictated by the
operating-system resolver — the first resolved address when the lookup
succeeds, an error when it fails — and is never a `NeedsResolution`
value (its result type has no such variant).  Its caller
`handle_request` in `src/proxy/src/handler/readable.rs`, and the spec,
instead expect the enum result modelled by `SpecProto.parse_request`,
which does yield `NeedsResolution` with no resolution oracle
consulted. -/
theorem C1_parse_domain_is_synchronous :
    (Protocol.parse_request (fun _ => Except.ok [⟨ipv4 10 0 0 7, 80⟩])
        [5, 1, 0, 3, 1, 97, 0, 80]
      = Except.ok (some ⟨⟨ipv4 10 0 0 7, 80⟩, "a:80"⟩))
    ∧ (Protocol.parse_request (fun _ => Except.error "lookup failed")
        [5, 1, 0, 3, 1, 97, 0, 80]
      = Except.error "lookup failed")
    ∧ (SpecProto.parse_request [5, 1, 0, 3, 1, 97, 0, 80]
      = Except.ok (some (SpecProto.RequestInfo.NeedsResolution "a" 80))) := by
  exact ⟨rfl, rfl, rfl⟩

/-- C10: whenever `resolve` returns an error — the domain name failed
to parse, the DNS message failed to encode, or the UDP send failed —
the pending-request map is left unchanged, so no entry exists for the
query id allocated to the call. -/
theorem C10_resolve_error_leaves_pending (r : Dns.DnsResolver)
    (domain : String) (port connId : Nat) (nameOk encodeOk sendOk : Bool)
    (now : Nat) (e : String)
    (h : (Dns.resolve r domain port connId nameOk encodeOk sendOk now).2
        = Except.error e) :
    (Dns.resolve r domain port connId nameOk encodeOk sendOk now).1.pending
      = r.pending := by
  unfold Dns.resolve at h ⊢
  cases nameOk <;> cases encodeOk <;> cases sendOk <;> simp_all

/-- Witness for C10 at a concrete input: a failing name parse leaves
the empty pending map empty. -/
theorem C10_resolve_error_witness :
    (Dns.resolve ⟨⟨0, 53⟩, [], 1⟩ "bad domain" 80 7 false true true 0).1.pending
      = [] :=
  C10_resolve_error_leaves_pending ⟨⟨0, 53⟩, [], 1⟩ "bad domain" 80 7
    false true true 0 "Invalid domain name" (by rfl)

/-- C7: per datagram handled by the DNS receive loop — a datagram from
a source other than the configured resolver is dropped; a malformed
message is discarded; a message whose id is not pending is discarded;
otherwise the pending entry is removed and exactly one event is
emitted: `Resolved` with the first A record and the requested port and
display `"domain:port"`, or `Failed` with reason
`"No A record in response"` when no answer is an A record.  The last
conjunct grounds the per-datagram step in `handle_responses`. -/
theorem C7_dns_receive_cases (r : Dns.DnsResolver) (d : Dns.Datagram)
    (msg : Dns.DnsMsg) (req : Dns.DnsRequest) :
    (d.source ≠ r.resolverAddr → Dns.handleDatagram r d = (r, []))
    ∧ (d.decoded = none → Dns.handleDatagram r d = (r, []))
    ∧ (d.source = r.resolverAddr → d.decoded = some msg →
        alookup msg.msgId r.pending = none → Dns.handleDatagram r d = (r, []))
    ∧ (d.source = r.resolverAddr → d.decoded = some msg →
        alookup msg.msgId r.pending = some req →
        (Dns.handleDatagram r d).1.pending = aremove msg.msgId r.pending
        ∧ (∀ ip, Dns.firstA msg.answers = some ip →
            (Dns.handleDatagram r d).2
              = [Dns.DnsEvent.Resolved req.connId ⟨ip, req.port⟩
                  (displayHostPort req.domain req.port)])
        ∧ (Dns.firstA msg.answers = none →
            (Dns.handleDatagram r d).2
              = [Dns.DnsEvent.Failed req.connId req.domain
                  "No A record in response"]))
    ∧ (∀ rest, Dns.handle_responses r (d :: rest)
        = ((Dns.handle_responses (Dns.handleDatagram r d).1 rest).1,
            (Dns.handleDatagram r d).2
              ++ (Dns.handle_responses (Dns.handleDatagram r d).1 rest).2)) := by
  refine ⟨?_, ?_, ?_, ?_, ?_⟩
  · intro h
    simp [Dns.handleDatagram, h]
  · intro h
    by_cases hs : d.source = r.resolverAddr
    · simp [Dns.handleDatagram, hs, h]
    · simp [Dns.handleDatagram, hs]
  · intro hs hdec hlook
    simp [Dns.handleDatagram, hs, hdec, hlook]
  · intro hs hdec hlook
    refine ⟨?_, ?_, ?_⟩
    · simp [Dns.handleDatagram, hs, hdec, hlook]
      split <;> rfl
    · intro ip hip
      simp [Dns.handleDatagram, hs, hdec, hlook, hip]
    · intro hnone
      simp [Dns.handleDatagram, hs, hdec, hlook, hnone]
  · intro rest
    rfl

/-- Witness for C7 at a concrete input: a well-formed response from
the resolver for a pending query with an A record removes the entry
and yields the `Resolved` event. -/
theorem C7_dns_receive_witness :
    (Dns.handleDatagram
        ⟨⟨8, 53⟩, [(3, ⟨"example", 80, 7, 0⟩)], 4⟩
        ⟨⟨8, 53⟩, some ⟨3, [Dns.RData.other, Dns.RData.A 9]⟩⟩).1.pending
      = aremove 3 [(3, ⟨"example", 80, 7, 0⟩)]
    ∧ (Dns.handleDatagram
        ⟨⟨8, 53⟩, [(3, ⟨"example", 80, 7, 0⟩)], 4⟩
        ⟨⟨8, 53⟩, some ⟨3, [Dns.RData.other, Dns.RData.A 9]⟩⟩).2
      = [Dns.DnsEvent.Resolved 7 ⟨9, 80⟩ (displayHostPort "example" 80)] := by
  have h := (C7_dns_receive_cases
      ⟨⟨8, 53⟩, [(3, ⟨"example", 80, 7, 0⟩)], 4⟩
      ⟨⟨8, 53⟩, some ⟨3, [Dns.RData.other, Dns.RData.A 9]⟩⟩
      ⟨3, [Dns.RData.other, Dns.RData.A 9]⟩
      ⟨"example", 80, 7, 0⟩).2.2.2.1 rfl rfl (by rfl)
  exact ⟨h.1, h.2.1 9 (by rfl)⟩

/-- C8 counterexample: the claim says the sweep removes a pending
request exactly when it is older than 5 seconds.  A request whose age
is exactly 5 seconds (5 000 000 000 ns) is not older than 5 seconds,
yet `cleanup_expired` (which tests `duration_since >= DNS_TIMEOUT`)
removes it and emits the timeout event. -/
theorem C8_exact_deadline_counterexample :
    (Dns.cleanup_expired ⟨⟨0, 53⟩, [(1, ⟨"example", 80, 7, 0⟩)], 2⟩
        5000000000).1.pending = []
    ∧ (Dns.cleanup_expired ⟨⟨0, 53⟩, [(1, ⟨"example", 80, 7, 0⟩)], 2⟩
        5000000000).2
      = [Dns.DnsEvent.Failed 7 "example" "DNS query timed out"]
    ∧ ¬ (5000000000 - 0 > 5000000000) := by
  exact ⟨rfl, rfl, by omega⟩

/-- C8 as amended: the sweep removes a pending request exactly when at
least 5 seconds have elapsed since its timestamp (so a request exactly
5 seconds old is also removed), emits one `Failed` event with reason
`"DNS query timed out"` per removed request, keeps exactly the
requests younger than 5 seconds, and never removes a request younger
than 5 seconds. -/
theorem C8_timeout_sweep (r : Dns.DnsResolver) (now : Nat)
    (q : Dns.DnsResolver × List Dns.DnsEvent)
    (hq : q = Dns.cleanup_expired r now) :
    q.1.pending
      = r.pending.filter (fun p => now - p.2.timestamp < Dns.DNS_TIMEOUT)
    ∧ q.2 = (r.pending.filter
          (fun p => Dns.DNS_TIMEOUT ≤ now - p.2.timestamp)).map
        (fun p => Dns.DnsEvent.Failed p.2.connId p.2.domain
          "DNS query timed out")
    ∧ (∀ p ∈ q.1.pending, now - p.2.timestamp < Dns.DNS_TIMEOUT)
    ∧ (∀ p ∈ r.pending, now - p.2.timestamp < Dns.DNS_TIMEOUT →
        p ∈ q.1.pending) := by
  have go : ∀ l : List (Nat × Dns.DnsRequest),
      (Dns.cleanup_expired_go now l).1
        = l.filter (fun p => now - p.2.timestamp < Dns.DNS_TIMEOUT)
      ∧ (Dns.cleanup_expired_go now l).2
        = (l.filter (fun p => Dns.DNS_TIMEOUT ≤ now - p.2.timestamp)).map
          (fun p => Dns.DnsEvent.Failed p.2.connId p.2.domain
            "DNS query timed out") := by
    intro l
    induction l with
    | nil => exact ⟨rfl, rfl⟩
    | cons p rest ih =>
      by_cases hp : Dns.DNS_TIMEOUT ≤ now - p.2.timestamp
      · have hp2 : ¬ (now - p.2.timestamp < Dns.DNS_TIMEOUT) := not_lt.mpr hp
        simp [Dns.cleanup_expired_go, List.filter_cons, hp, hp2, ih.1, ih.2]
      · have hp2 : now - p.2.timestamp < Dns.DNS_TIMEOUT := not_le.mp hp
        simp [Dns.cleanup_expired_go, List.filter_cons, hp, hp2, ih.1, ih.2]
  have h1 : q.1.pending
      = r.pending.filter (fun p => now - p.2.timestamp < Dns.DNS_TIMEOUT) := by
    rw [hq]
    exact (go r.pending).1
  have h2 : q.2 = (r.pending.filter
        (fun p => Dns.DNS_TIMEOUT ≤ now - p.2.timestamp)).map
      (fun p => Dns.DnsEvent.Failed p.2.connId p.2.domain
        "DNS query timed out") := by
    rw [hq]
    exact (go r.pending).2
  refine ⟨h1, h2, ?_, ?_⟩
  · intro p hp
    rw [h1] at hp
    have := List.of_mem_filter hp
    simpa using this
  · intro p hp hyoung
    rw [h1]
    exact List.mem_filter.mpr ⟨hp, by simpa using hyoung⟩

/-- Witness for C8 at a concrete input: a request 1 ns younger than
the deadline survives the sweep, one at the deadline is removed with
its event. -/
theorem C8_timeout_sweep_witness :
    (Dns.cleanup_expired
        ⟨⟨0, 53⟩, [(1, ⟨"a", 80, 7, 0⟩), (2, ⟨"b", 81, 8, 1⟩)], 3⟩
        5000000000).1.pending = [(2, ⟨"b", 81, 8, 1⟩)]
    ∧ (Dns.cleanup_expired
        ⟨⟨0, 53⟩, [(1, ⟨"a", 80, 7, 0⟩), (2, ⟨"b", 81, 8, 1⟩)], 3⟩
        5000000000).2
      = [Dns.DnsEvent.Failed 7 "a" "DNS query timed out"] := by
  have h := C8_timeout_sweep
      ⟨⟨0, 53⟩, [(1, ⟨"a", 80, 7, 0⟩), (2, ⟨"b", 81, 8, 1⟩)], 3⟩
      5000000000 _ rfl
  exact ⟨by rw [h.1]; rfl, by rw [h.2.1]; rfl⟩

/-- C9: running `cleanup_connection` for a connection id removes the
record from the table, leaves no token-index entry mapping to that id,
and deregisters the client token and the target token (when a target
exists) from the reactor registry. -/
theorem C9_cleanup_purges (connId : Nat) (sys : Sys)
    (conns : List (Nat × Conn)) (q : Sys × List (Nat × Conn))
    (hq : q = cleanup_connection connId sys conns) :
    alookup connId q.2 = none
    ∧ (∀ t k, alookup t q.1.tokenMap ≠ some (connId, k))
    ∧ (∀ conn, alookup connId conns = some conn →
        alookup conn.clientToken q.1.registry = none
        ∧ ∀ tt, conn.target = some tt → alookup tt q.1.registry = none) := by
  have tok : ∀ (tm : List (Nat × Nat × EndpointKind)) (t k : Nat)
      (kk : EndpointKind),
      alookup t (tm.filter (fun e => e.2.1 ≠ connId)) ≠ some (k, kk)
      ∨ k ≠ connId := by
    intro tm t k kk
    by_cases hk : k = connId
    · subst hk
      left
      intro hcontra
      have hmem := alookup_mem hcontra
      have hfil := List.of_mem_filter hmem
      simp at hfil
    · right
      exact hk
  have tok2 : ∀ (tm : List (Nat × Nat × EndpointKind)) (t : Nat)
      (kk : EndpointKind),
      alookup t (tm.filter (fun e => e.2.1 ≠ connId)) ≠ some (connId, kk) := by
    intro tm t kk
    rcases tok tm t connId kk with h | h
    · exact h
    · exact absurd rfl h
  cases hc : alookup connId conns with
  | none =>
    have hq2 : q = ({ sys with
        tokenMap := sys.tokenMap.filter (fun e => e.2.1 ≠ connId) }, conns) := by
      rw [hq]
      unfold cleanup_connection
      rw [hc]
    refine ⟨?_, ?_, ?_⟩
    · rw [hq2]
      exact hc
    · intro t k
      rw [hq2]
      exact tok2 sys.tokenMap t k
    · intro conn h
      exact Option.noConfusion h
  | some conn =>
    have hq2 : q = ({ sys with
        registry :=
          match conn.target with
          | some tt => aremove tt (aremove conn.clientToken sys.registry)
          | none => aremove conn.clientToken sys.registry
        tokenMap := sys.tokenMap.filter (fun e => e.2.1 ≠ connId) },
        aremove connId conns) := by
      rw [hq]
      unfold cleanup_connection
      rw [hc]
    refine ⟨?_, ?_, ?_⟩
    · rw [hq2]
      exact alookup_aremove_self connId conns
    · intro t k
      rw [hq2]
      exact tok2 sys.tokenMap t k
    · intro conn' h
      have he : conn' = conn := (Option.some.inj h).symm
      subst he
      constructor
      · rw [hq2]
        cases ht : conn'.target with
        | none => simp [ht, alookup_aremove_self]
        | some tt =>
          simp only [ht]
          by_cases he2 : conn'.clientToken = tt
          · rw [he2]
            exact alookup_aremove_self tt _
          · rw [alookup_aremove_ne conn'.clientToken tt he2]
            exact alookup_aremove_self conn'.clientToken sys.registry
      · intro tt htt
        rw [hq2]
        simp only [htt]
        exact alookup_aremove_self tt _

/-- Witness for C9 at a concrete input: cleaning up connection 1 with
client token 2 and target token 3 empties its table entry, its token
mappings and both registrations. -/
theorem C9_cleanup_witness :
    alookup 1 (cleanup_connection 1
        ⟨[(2, Interests.R), (3, Interests.W)],
          [(2, 1, EndpointKind.Client), (3, 1, EndpointKind.Target)], 4,
          ⟨⟨0, 53⟩, [], 1⟩⟩
        [(1, { Conn.new 2 with target := some 3 })]).2 = none
    ∧ (alookup 2 (cleanup_connection 1
        ⟨[(2, Interests.R), (3, Interests.W)],
          [(2, 1, EndpointKind.Client), (3, 1, EndpointKind.Target)], 4,
          ⟨⟨0, 53⟩, [], 1⟩⟩
        [(1, { Conn.new 2 with target := some 3 })]).1.tokenMap
      ≠ some (1, EndpointKind.Client)) := by
  have h := C9_cleanup_purges 1
      ⟨[(2, Interests.R), (3, Interests.W)],
        [(2, 1, EndpointKind.Client), (3, 1, EndpointKind.Target)], 4,
        ⟨⟨0, 53⟩, [], 1⟩⟩
      [(1, { Conn.new 2 with target := some 3 })] _ rfl
  exact ⟨h.1, h.2.1 2 EndpointKind.Client⟩

/-- C4: for a greeting `05 NN M1 … MNN` with `NN ∈ [1, 255]`, once the
accumulated bytes reach `2 + NN` the handshake handler writes exactly
`05 00` (whatever the method bytes are), clears the accumulated buffer
and moves to the `Request` state; with fewer bytes accumulated it
writes nothing and keeps the accumulated bytes and state. -/
theorem C4_handshake_acceptance (conn : Conn) (sys : Sys) (o : ROracles)
    (bs : List Nat) (nn : Nat) (r : HOut)
    (hr : r = handle_handshake conn sys o)
    (hread : o.readRes = ReadRes.ok bs) (hbs : bs.isEmpty = false)
    (hwr : o.writeAllOk = true)
    (hv : (conn.clientBuf ++ bs).getD 0 0 = 5)
    (hnn : (conn.clientBuf ++ bs).getD 1 0 = nn)
    (h1 : 1 ≤ nn) (h255 : nn ≤ 255) :
    (2 + nn ≤ (conn.clientBuf ++ bs).length →
      r.clientWrites = create_auth_response
      ∧ r.clientWrites = [5, 0]
      ∧ r.conn.clientBuf = []
      ∧ r.conn.state = ClientState.Request
      ∧ r.ok = true)
    ∧ ((conn.clientBuf ++ bs).length < 2 + nn →
      r.clientWrites = []
      ∧ r.conn.state = conn.state
      ∧ r.conn.clientBuf = conn.clientBuf ++ bs
      ∧ r.ok = true) := by
  subst hr
  unfold handle_handshake
  rw [hread]
  simp only [hbs, Bool.false_eq_true, if_false, hnn, hv, hwr]
  constructor
  · intro hlen
    have hge2 : (conn.clientBuf ++ bs).length ≥ 2 := by omega
    rw [if_pos hge2, if_pos hlen]
    simp [create_auth_response]
  · intro hlen
    by_cases hge2 : (conn.clientBuf ++ bs).length ≥ 2
    · rw [if_pos hge2, if_neg (by omega)]
      simp
    · rw [if_neg hge2]
      simp

/-- Witness for C4 at a concrete input: the complete greeting
`05 01 00` gets the reply `05 00` and the state moves to `Request`. -/
theorem C4_handshake_witness :
    (handle_handshake (Conn.new 2) ⟨[], [], 0, ⟨⟨0, 53⟩, [], 1⟩⟩
        ⟨ReadRes.ok [5, 1, 0], true, true, true, true, true, 0⟩).clientWrites
      = [5, 0]
    ∧ (handle_handshake (Conn.new 2) ⟨[], [], 0, ⟨⟨0, 53⟩, [], 1⟩⟩
        ⟨ReadRes.ok [5, 1, 0], true, true, true, true, true, 0⟩).conn.state
      = ClientState.Request := by
  have h := (C4_handshake_acceptance (Conn.new 2) ⟨[], [], 0, ⟨⟨0, 53⟩, [], 1⟩⟩
      ⟨ReadRes.ok [5, 1, 0], true, true, true, true, true, 0⟩ [5, 1, 0] 1 _
      rfl rfl rfl rfl rfl rfl (by decide) (by decide)).1 (by decide)
  exact ⟨h.2.1, h.2.2.2.1⟩

theorem handle_target_readable_t2c (conn : Conn) (sys : Sys)
    (o : ROracles) (bs : List Nat) (hr : o.readRes = ReadRes.ok bs)
    (ht : conn.target.isSome = true) :
    (handle_target_readable conn sys o).conn.targetToClient
      = conn.targetToClient ++ bs
    ∧ (handle_target_readable conn sys o).conn.target = conn.target := by
  obtain ⟨tt, htt⟩ := Option.isSome_iff_exists.mp ht
  unfold handle_target_readable
  rw [htt, hr]
  by_cases hbs : bs.isEmpty
  · have h0 : bs = [] := List.isEmpty_iff.mp hbs
    subst h0
    simp [htt]
  · have hf : bs.isEmpty = false := Bool.eq_false_iff.mpr hbs
    simp [hf, htt]

theorem handle_client_writable_drain (conn : Conn) (o : WOracles) :
    (handle_client_writable conn o).2.1
        ++ (handle_client_writable conn o).1.targetToClient
      = conn.targetToClient := by
  unfold handle_client_writable
  repeat' split
  all_goals simp [List.take_append_drop]

theorem handle_target_writable_drain (conn : Conn) (sys : Sys)
    (o : WOracles) :
    (handle_target_writable conn sys o).targetWrites
        ++ (handle_target_writable conn sys o).conn.clientToTarget
      = conn.clientToTarget := by
  unfold handle_target_writable
  repeat' split
  all_goals simp [List.take_append_drop]

theorem handle_client_data_c2t (conn : Conn) (sys : Sys) (o : ROracles)
    (bs : List Nat) (hr : o.readRes = ReadRes.ok bs) :
    (handle_client_data conn sys o).conn.clientToTarget
      = conn.clientToTarget ++ bs := by
  unfold handle_client_data
  rw [hr]
  by_cases hbs : bs.isEmpty
  · have h0 : bs = [] := List.isEmpty_iff.mp hbs
    subst h0
    simp
  · have hf : bs.isEmpty = false := Bool.eq_false_iff.mpr hbs
    simp only [hf, Bool.false_eq_true, if_false]
    cases htg : conn.target <;> simp

theorem handle_client_writable_tokens (conn : Conn) (o : WOracles) :
    (handle_client_writable conn o).1.clientToken = conn.clientToken
    ∧ (handle_client_writable conn o).1.target = conn.target := by
  refine ⟨?_, ?_⟩ <;>
    · unfold handle_client_writable
      repeat' split
      all_goals rfl

theorem handle_target_writable_tokens (conn : Conn) (sys : Sys)
    (o : WOracles) :
    (handle_target_writable conn sys o).conn.clientToken = conn.clientToken
    ∧ (handle_target_writable conn sys o).conn.target = conn.target := by
  refine ⟨?_, ?_⟩ <;>
    · unfold handle_target_writable
      repeat' split
      all_goals rfl

theorem relay_t2c_concat (wa : Bool) : ∀ (evs : List RelayEv) (conn : Conn)
    (sys : Sys), conn.target.isSome = true →
    (relay_t2c_run wa conn sys evs).2
        ++ (relay_t2c_run wa conn sys evs).1.targetToClient
      = conn.targetToClient ++ relayReads evs := by
  intro evs
  induction evs with
  | nil =>
    intro conn sys _
    simp [relay_t2c_run, relayReads]
  | cons ev evs ih =>
    intro conn sys htgt
    cases ev with
    | read bs =>
      have hstep := handle_target_readable_t2c conn sys
        ⟨ReadRes.ok bs, wa, wa, wa, wa, wa, 0⟩ bs rfl htgt
      have htgt2 : (handle_target_readable conn sys
          ⟨ReadRes.ok bs, wa, wa, wa, wa, wa, 0⟩).conn.target.isSome
          = true := by
        rw [hstep.2]
        exact htgt
      simp only [relay_t2c_run, relayReads]
      rw [ih _ _ htgt2, hstep.1, List.append_assoc]
    | write w =>
      have hdrain := handle_client_writable_drain conn ⟨w, wa⟩
      have htok := handle_client_writable_tokens conn ⟨w, wa⟩
      have htgt2 : (handle_client_writable conn ⟨w, wa⟩).1.target.isSome
          = true := by
        rw [htok.2]
        exact htgt
      simp only [relay_t2c_run, relayReads]
      rw [List.append_assoc, ih _ _ htgt2, ← List.append_assoc, hdrain]

theorem relay_c2t_concat (wa : Bool) : ∀ (evs : List RelayEv) (conn : Conn)
    (sys : Sys),
    (relay_c2t_run wa conn sys evs).2
        ++ (relay_c2t_run wa conn sys evs).1.clientToTarget
      = conn.clientToTarget ++ relayReads evs := by
  intro evs
  induction evs with
  | nil =>
    intro conn sys
    simp [relay_c2t_run, relayReads]
  | cons ev evs ih =>
    intro conn sys
    cases ev with
    | read bs =>
      have hstep := handle_client_data_c2t conn sys
        ⟨ReadRes.ok bs, wa, wa, wa, wa, wa, 0⟩ bs rfl
      simp only [relay_c2t_run, relayReads]
      rw [ih _ _, hstep, List.append_assoc]
    | write w =>
      have hdrain := handle_target_writable_drain conn sys ⟨w, wa⟩
      simp only [relay_c2t_run, relayReads]
      rw [List.append_assoc, ih _ _, ← List.append_assoc, hdrain]

/-- C5: during `Tunneling`, a writable step writes from the head of
the relevant relay buffer and removes exactly the bytes reported
written (the written prefix concatenated with the remaining buffer is
the original buffer); would-block removes nothing and is not an error;
a readable step appends the read bytes to the tail of its buffer and
leaves the opposite buffer alone; consequently, over any sequence of
read and write events in either direction, the bytes delivered plus
the bytes still buffered equal the initial buffer followed by the
in-order concatenation of all reads — never merged or reordered. -/
theorem C5_relay_buffers (conn : Conn) (sys : Sys) (o : WOracles)
    (ro : ROracles) (n : Nat) (bs : List Nat)
    (hstate : conn.state = ClientState.Tunneling) :
    (o.writeRes = WriteRes.wrote n →
      (handle_client_writable conn o).2.1 = conn.targetToClient.take n
      ∧ (handle_client_writable conn o).1.targetToClient
          = conn.targetToClient.drop n
      ∧ (handle_client_writable conn o).2.1
            ++ (handle_client_writable conn o).1.targetToClient
          = conn.targetToClient
      ∧ (n ≤ conn.targetToClient.length →
          ((handle_client_writable conn o).2.1).length = n)
      ∧ (handle_client_writable conn o).2.2 = true)
    ∧ (o.writeRes = WriteRes.wouldBlock →
      (handle_client_writable conn o).1 = conn
      ∧ (handle_client_writable conn o).2.1 = []
      ∧ (handle_client_writable conn o).2.2 = true)
    ∧ (conn.target.isSome = true → o.writeRes = WriteRes.wrote n →
      (handle_target_writable conn sys o).targetWrites
          = conn.clientToTarget.take n
      ∧ (handle_target_writable conn sys o).conn.clientToTarget
          = conn.clientToTarget.drop n
      ∧ (handle_target_writable conn sys o).targetWrites
            ++ (handle_target_writable conn sys o).conn.clientToTarget
          = conn.clientToTarget
      ∧ (n ≤ conn.clientToTarget.length →
          ((handle_target_writable conn sys o).targetWrites).length = n)
      ∧ (handle_target_writable conn sys o).ok = true)
    ∧ (conn.target.isSome = true → o.writeRes = WriteRes.wouldBlock →
      (handle_target_writable conn sys o).conn = conn
      ∧ (handle_target_writable conn sys o).targetWrites = []
      ∧ (handle_target_writable conn sys o).ok = true)
    ∧ (ro.readRes = ReadRes.ok bs → bs.isEmpty = false →
      (handle_client_data conn sys ro).conn.clientToTarget
          = conn.clientToTarget ++ bs
      ∧ (handle_client_data conn sys ro).conn.targetToClient
          = conn.targetToClient)
    ∧ (conn.target.isSome = true → ro.readRes = ReadRes.ok bs →
        bs.isEmpty = false →
      (handle_target_readable conn sys ro).conn.targetToClient
          = conn.targetToClient ++ bs
      ∧ (handle_target_readable conn sys ro).conn.clientToTarget
          = conn.clientToTarget)
    ∧ (∀ (wa : Bool) (evs : List RelayEv), conn.target.isSome = true →
      (relay_t2c_run wa conn sys evs).2
          ++ (relay_t2c_run wa conn sys evs).1.targetToClient
        = conn.targetToClient ++ relayReads evs)
    ∧ (∀ (wa : Bool) (evs : List RelayEv),
      (relay_c2t_run wa conn sys evs).2
          ++ (relay_c2t_run wa conn sys evs).1.clientToTarget
        = conn.clientToTarget ++ relayReads evs) := by
  refine ⟨?_, ?_, ?_, ?_, ?_, ?_, ?_, ?_⟩
  · intro hw
    unfold handle_client_writable
    rw [hstate, hw]
    by_cases hE : conn.targetToClient.isEmpty
    · have hnil : conn.targetToClient = [] := List.isEmpty_iff.mp hE
      simp [hE, hnil]
      omega
    · have hfalse : conn.targetToClient.isEmpty = false :=
        Bool.eq_false_iff.mpr hE
      simp only [hfalse, Bool.not_false, if_true]
      refine ⟨True.intro, True.intro, List.take_append_drop n conn.targetToClient, ?_, True.intro⟩
      intro hle
      simp [List.length_take, Nat.min_eq_left hle]
  · intro hw
    unfold handle_client_writable
    rw [hstate, hw]
    by_cases hE : conn.targetToClient.isEmpty <;> simp [hE]
  · intro hts hw
    obtain ⟨tt, ht⟩ := Option.isSome_iff_exists.mp hts
    unfold handle_target_writable
    rw [hstate, ht, hw]
    by_cases hE : conn.clientToTarget.isEmpty
    · have hnil : conn.clientToTarget = [] := List.isEmpty_iff.mp hE
      simp [hE, hnil]
      omega
    · have hfalse : conn.clientToTarget.isEmpty = false :=
        Bool.eq_false_iff.mpr hE
      simp only [hfalse, Bool.not_false, if_true]
      refine ⟨True.intro, True.intro, List.take_append_drop n conn.clientToTarget, ?_, True.intro⟩
      intro hle
      simp [List.length_take, Nat.min_eq_left hle]
  · intro hts hw
    obtain ⟨tt, ht⟩ := Option.isSome_iff_exists.mp hts
    unfold handle_target_writable
    rw [hstate, ht, hw]
    by_cases hE : conn.clientToTarget.isEmpty <;> simp [hE]
  · intro hr hbs
    unfold handle_client_data
    rw [hr]
    simp only [hbs, Bool.false_eq_true, if_false]
    cases htg : conn.target <;> simp
  · intro hts hr hbs
    obtain ⟨tt, ht⟩ := Option.isSome_iff_exists.mp hts
    unfold handle_target_readable
    rw [ht, hr]
    simp [hbs]
  · intro wa evs htgt
    exact relay_t2c_concat wa evs conn sys htgt
  · intro wa evs
    exact relay_c2t_concat wa evs conn sys

/-- Witness for C5 at a concrete input: a partial write of 2 bytes
from a 3-byte target→client buffer emits its head `[10, 11]` and
leaves `[12]`. -/
theorem C5_relay_witness :
    (handle_client_writable
        { Conn.new 2 with state := ClientState.Tunneling, targetToClient := [10, 11, 12] }
        ⟨WriteRes.wrote 2, true⟩).2.1 = [10, 11]
    ∧ (handle_client_writable
        { Conn.new 2 with state := ClientState.Tunneling, targetToClient := [10, 11, 12] }
        ⟨WriteRes.wrote 2, true⟩).1.targetToClient = [12] := by
  have h := (C5_relay_buffers
      { Conn.new 2 with state := ClientState.Tunneling, targetToClient := [10, 11, 12] }
      ⟨[], [], 0, ⟨⟨0, 53⟩, [], 1⟩⟩ ⟨WriteRes.wrote 2, true⟩
      ⟨ReadRes.wouldBlock, true, true, true, true, true, 0⟩ 2 []
      rfl).1 rfl
  exact ⟨h.1, h.2.1⟩

theorem alookup_cleanup_self (connId : Nat) (sys : Sys)
    (conns : List (Nat × Conn)) :
    alookup connId (cleanup_connection connId sys conns).2 = none := by
  unfold cleanup_connection
  cases h : alookup connId conns with
  | none =>
    simp only [h]
  | some conn =>
    simp only [h]
    exact alookup_aremove_self connId conns

/-- C6: the teardown-eligibility predicate `should_close` holds
exactly when the client side is closed with an empty target→client
buffer or the target side is closed with an empty client→target
buffer; and after `handle_connection_event` processes an event routed
to a connection, any record still in the table for that id does not
satisfy the predicate — i.e. the event loop tears the connection down
whenever the predicate holds after handling. -/
theorem C6_should_close_drives_teardown (c : Conn) (sys : Sys)
    (conns : List (Nat × Conn)) (token connId : Nat)
    (endpoint : EndpointKind) (isR isW : Bool) (ro : ROracles)
    (wo : WOracles) (e : EvOut)
    (he : e = handle_connection_event sys conns token isR isW ro wo)
    (htok : alookup token sys.tokenMap = some (connId, endpoint)) :
    (Conn.should_close c = true ↔
      ((c.clientClosed = true ∧ c.targetToClient = [])
        ∨ (c.targetClosed = true ∧ c.clientToTarget = [])))
    ∧ (∀ c', alookup connId e.conns = some c' →
        Conn.should_close c' = false) := by
  refine ⟨?_, ?_⟩
  · unfold Conn.should_close
    simp [List.isEmpty_iff]
  · intro c' hc'
    rw [he] at hc'
    simp only [handle_connection_event, htok] at hc'
    cases hcc : alookup connId conns with
    | none =>
      simp only [hcc] at hc'
      exact Option.noConfusion hc'
    | some conn =>
      simp only [hcc] at hc'
      generalize hW : writePhase (readPhase conn connId endpoint sys ro isR)
          endpoint wo isW = W at hc'
      generalize hR : readPhase conn connId endpoint sys ro isR = R at hc'
      split at hc'
      · dsimp only at hc'
        rw [alookup_cleanup_self] at hc'
        exact Option.noConfusion hc'
      · dsimp only at hc'
        rw [alookup_aset_self] at hc'
        have hcc2 := Option.some.inj hc'
        rw [← hcc2]
        rename_i hclose
        simp only [Bool.or_eq_true, Bool.not_eq_true', not_or] at hclose
        exact Bool.eq_false_iff.mpr hclose.2

/-- Witness for C6 at a concrete input: a connection with the client
side closed and both buffers empty satisfies the predicate. -/
theorem C6_should_close_witness :
    Conn.should_close { Conn.new 2 with clientClosed := true } = true := by
  have h := C6_should_close_drives_teardown
      { Conn.new 2 with clientClosed := true }
      ⟨[(2, Interests.R)], [(2, 1, EndpointKind.Client)], 3, ⟨⟨0, 53⟩, [], 1⟩⟩
      [(1, { Conn.new 2 with clientClosed := true })] 2 1 EndpointKind.Client
      false false ⟨ReadRes.wouldBlock, true, true, true, true, true, 0⟩
      ⟨WriteRes.wouldBlock, true⟩ _ rfl rfl
  exact h.1.mpr (Or.inl ⟨rfl, rfl⟩)

/-- C3 counterexample: the claim requires the derived interest policy
to hold after every readable handling step.  The readable step that
parses a complete IPv4 `CONNECT` and initiates the outbound connect
registers the target token with `WRITABLE` interest only, while the
connection is in `Connecting`, where the derived policy requires
`READABLE | WRITABLE` — so after this readable step the target's
actual interest differs from the policy interest. -/
theorem C3_readable_step_violates_policy :
    alookup 3 (handle_readable { Conn.new 2 with state := ClientState.Request }
        1 EndpointKind.Client
        ⟨[(2, Interests.R)], [(2, 1, EndpointKind.Client)], 3, ⟨⟨0, 53⟩, [], 1⟩⟩
        ⟨ReadRes.ok [5, 1, 0, 1, 127, 0, 0, 1, 0, 80],
          true, true, true, true, true, 0⟩).sys.registry
      = some Interests.W
    ∧ (handle_readable { Conn.new 2 with state := ClientState.Request }
        1 EndpointKind.Client
        ⟨[(2, Interests.R)], [(2, 1, EndpointKind.Client)], 3, ⟨⟨0, 53⟩, [], 1⟩⟩
        ⟨ReadRes.ok [5, 1, 0, 1, 127, 0, 0, 1, 0, 80],
          true, true, true, true, true, 0⟩).conn.target = some 3
    ∧ (handle_readable { Conn.new 2 with state := ClientState.Request }
        1 EndpointKind.Client
        ⟨[(2, Interests.R)], [(2, 1, EndpointKind.Client)], 3, ⟨⟨0, 53⟩, [], 1⟩⟩
        ⟨ReadRes.ok [5, 1, 0, 1, 127, 0, 0, 1, 0, 80],
          true, true, true, true, true, 0⟩).conn.state
      = ClientState.Connecting
    ∧ policyTargetInterest
        (handle_readable { Conn.new 2 with state := ClientState.Request }
          1 EndpointKind.Client
          ⟨[(2, Interests.R)], [(2, 1, EndpointKind.Client)], 3, ⟨⟨0, 53⟩, [], 1⟩⟩
          ⟨ReadRes.ok [5, 1, 0, 1, 127, 0, 0, 1, 0, 80],
            true, true, true, true, true, 0⟩).conn
      = Interests.RW
    ∧ Interests.W ≠ Interests.RW := by
  refine ⟨rfl, rfl, rfl, rfl, by decide⟩

theorem update_interests_policy (c : Conn) (reg : List (Nat × Interests))
    (hne : ∀ tt, c.target = some tt → tt ≠ c.clientToken) :
    alookup c.clientToken (update_interests c reg)
      = some (policyClientInterest c)
    ∧ ∀ tt, c.target = some tt →
        alookup tt (update_interests c reg)
          = some (policyTargetInterest c) := by
  unfold update_interests
  cases ht : c.target with
  | none =>
    refine ⟨alookup_aset_self _ _ _, ?_⟩
    intro tt htt
    exact Option.noConfusion htt
  | some tt0 =>
    have hne0 := hne tt0 ht
    refine ⟨?_, ?_⟩
    · rw [alookup_aset_ne _ _ _ (Ne.symm hne0)]
      exact alookup_aset_self _ _ _
    · intro tt htt
      have he := Option.some.inj htt
      rw [← he]
      exact alookup_aset_self _ _ _

theorem handle_writable_ok_registry (conn : Conn) (endpoint : EndpointKind)
    (sys : Sys) (o : WOracles)
    (hok : (handle_writable conn endpoint sys o).ok = true) :
    ∃ reg0, (handle_writable conn endpoint sys o).sys.registry
      = update_interests (handle_writable conn endpoint sys o).conn reg0 := by
  unfold handle_writable at hok ⊢
  cases endpoint with
  | Client =>
    by_cases h : (handle_client_writable conn o).2.2 = true
    · simp only [h, if_true]
      exact ⟨sys.registry, rfl⟩
    · simp [h] at hok
  | Target =>
    by_cases h : (handle_target_writable conn sys o).ok = true
    · simp only [h, if_true]
      exact ⟨(handle_target_writable conn sys o).sys.registry, rfl⟩
    · simp [h] at hok

theorem handle_writable_conn_tokens (conn : Conn) (endpoint : EndpointKind)
    (sys : Sys) (o : WOracles) :
    (handle_writable conn endpoint sys o).conn.clientToken = conn.clientToken
    ∧ (handle_writable conn endpoint sys o).conn.target = conn.target := by
  unfold handle_writable
  cases endpoint with
  | Client =>
    by_cases h : (handle_client_writable conn o).2.2 = true <;>
      simp [h] <;>
      exact handle_client_writable_tokens conn o
  | Target =>
    by_cases h : (handle_target_writable conn sys o).ok = true <;>
      simp [h] <;>
      exact handle_target_writable_tokens conn sys o

/-- C3 as amended: the derived interest policy is established at the
end of every successful writable handling step (`handle_writable` ends
with `update_interests`): the client's registered interest is Readable
plus Writable iff the target→client buffer is non-empty, and the
target's registered interest (when a target exists) is Readable plus
Writable iff the state is `Connecting` or the client→target buffer is
non-empty.  Readable handling steps do not reapply the policy; in
particular the step that initiates the outbound connect registers the
target Writable-only (see the counterexample). -/
theorem C3_writable_step_applies_policy (conn : Conn)
    (endpoint : EndpointKind) (sys : Sys) (o : WOracles) (r : HOut)
    (hr : r = handle_writable conn endpoint sys o)
    (hne : ∀ tt, conn.target = some tt → tt ≠ conn.clientToken)
    (hok : r.ok = true) :
    alookup r.conn.clientToken r.sys.registry
      = some (policyClientInterest r.conn)
    ∧ ∀ tt, r.conn.target = some tt →
        alookup tt r.sys.registry = some (policyTargetInterest r.conn) := by
  subst hr
  obtain ⟨reg0, hreg⟩ := handle_writable_ok_registry conn endpoint sys o hok
  have hpres := handle_writable_conn_tokens conn endpoint sys o
  have hne2 : ∀ tt, (handle_writable conn endpoint sys o).conn.target = some tt →
      tt ≠ (handle_writable conn endpoint sys o).conn.clientToken := by
    intro tt htt
    rw [hpres.2] at htt
    rw [hpres.1]
    exact hne tt htt
  rw [hreg]
  exact update_interests_policy _ reg0 hne2

/-- Witness for C3's amended theorem at a concrete input: after a
no-op writable step on a fresh connection the client token is
registered with exactly the policy interest. -/
theorem C3_policy_witness :
    alookup 2 (handle_writable (Conn.new 2) EndpointKind.Client
        ⟨[], [], 0, ⟨⟨0, 53⟩, [], 1⟩⟩ ⟨WriteRes.wouldBlock, true⟩).sys.registry
      = some (policyClientInterest (Conn.new 2)) := by
  have h := C3_writable_step_applies_policy (Conn.new 2) EndpointKind.Client
      ⟨[], [], 0, ⟨⟨0, 53⟩, [], 1⟩⟩ ⟨WriteRes.wouldBlock, true⟩ _ rfl
      (fun tt htt => Option.noConfusion htt) rfl
  exact h.1

/-- C2 counterexample: the claim says a complete request frame with
`VER = 0x05` and `CMD ≠ 0x01` gets a refused reply written before the
connection is torn down.  Handling the complete frame
`05 02 00 01 7F 00 00 01 00 50` (CMD = 0x02) writes no bytes at all to
the client — the parse error propagates and the connection is simply
removed — while the refused reply is a non-empty ten-byte frame. -/
theorem C2_no_refused_reply_counterexample :
    (handle_connection_event
        ⟨[(2, Interests.R)], [(2, 1, EndpointKind.Client)], 3, ⟨⟨0, 53⟩, [], 1⟩⟩
        [(1, { Conn.new 2 with state := ClientState.Request })] 2 true false
        ⟨ReadRes.ok [5, 2, 0, 1, 127, 0, 0, 1, 0, 80],
          true, true, true, true, true, 0⟩
        ⟨WriteRes.wouldBlock, true⟩).clientWrites = []
    ∧ alookup 1 (handle_connection_event
        ⟨[(2, Interests.R)], [(2, 1, EndpointKind.Client)], 3, ⟨⟨0, 53⟩, [], 1⟩⟩
        [(1, { Conn.new 2 with state := ClientState.Request })] 2 true false
        ⟨ReadRes.ok [5, 2, 0, 1, 127, 0, 0, 1, 0, 80],
          true, true, true, true, true, 0⟩
        ⟨WriteRes.wouldBlock, true⟩).conns = none
    ∧ create_refused_response ≠ [] := by
  refine ⟨rfl, rfl, by decide⟩

/-- C2 as amended: for every complete request frame with `VER = 0x05`
whose `CMD` is not `0x01`, or whose `ATYP` is neither `0x01` nor
`0x03`, handling the request writes no reply bytes (the parse error
propagates) and the event loop then tears the connection down: the
connection is removed from the table. -/
theorem C2_bad_request_closed_silently (sys : Sys)
    (conns : List (Nat × Conn)) (token connId : Nat) (conn : Conn)
    (bs : List Nat) (ro : ROracles) (wo : WOracles) (e : EvOut)
    (he : e = handle_connection_event sys conns token true false ro wo)
    (htok : alookup token sys.tokenMap = some (connId, EndpointKind.Client))
    (hconn : alookup connId conns = some conn)
    (hstate : conn.state = ClientState.Request)
    (hread : ro.readRes = ReadRes.ok bs)
    (hbs : bs.isEmpty = false)
    (hlen : 4 ≤ (conn.clientBuf ++ bs).length)
    (hver : (conn.clientBuf ++ bs).getD 0 0 = 5)
    (hbad : (conn.clientBuf ++ bs).getD 1 0 ≠ 1
      ∨ ((conn.clientBuf ++ bs).getD 3 0 ≠ 1
        ∧ (conn.clientBuf ++ bs).getD 3 0 ≠ 3)) :
    e.clientWrites = [] ∧ e.targetWrites = []
    ∧ alookup connId e.conns = none := by
  have hparse : ∃ msg, SpecProto.parse_request (conn.clientBuf ++ bs)
      = Except.error msg := by
    have h4b : ¬ conn.clientBuf.length + bs.length < 4 := by
      have h5 := hlen
      simp only [List.length_append] at h5
      omega
    have hv2 : (conn.clientBuf ++ bs)[0]?.getD 0 = 5 := by
      rw [← List.getD_eq_getElem?_getD]
      exact hver
    unfold SpecProto.parse_request
    by_cases hcmd : (conn.clientBuf ++ bs).getD 1 0 = 1
    · have hatyp : (conn.clientBuf ++ bs).getD 3 0 ≠ 1
          ∧ (conn.clientBuf ++ bs).getD 3 0 ≠ 3 := by
        rcases hbad with h | h
        · exact absurd hcmd h
        · exact h
      have hc2 : (conn.clientBuf ++ bs)[1]?.getD 0 = 1 := by
        rw [← List.getD_eq_getElem?_getD]
        exact hcmd
      have ha1 : ¬ (conn.clientBuf ++ bs)[3]?.getD 0 = 1 := by
        rw [← List.getD_eq_getElem?_getD]
        exact hatyp.1
      have ha3 : ¬ (conn.clientBuf ++ bs)[3]?.getD 0 = 3 := by
        rw [← List.getD_eq_getElem?_getD]
        exact hatyp.2
      refine ⟨"Unsupported address type", ?_⟩
      simp [h4b, hv2, hc2, ha1, ha3]
    · have hc2 : ¬ (conn.clientBuf ++ bs)[1]?.getD 0 = 1 := by
        rw [← List.getD_eq_getElem?_getD]
        exact hcmd
      refine ⟨"Only CONNECT supported", ?_⟩
      simp [h4b, hv2, hc2]
  obtain ⟨msg, hmsg⟩ := hparse
  have hreq : handle_request conn connId sys ro
      = ⟨{ conn with clientBuf := conn.clientBuf ++ bs }, sys, [], [],
          false⟩ := by
    unfold handle_request
    rw [hread]
    simp only [hbs, Bool.false_eq_true, if_false]
    rw [hmsg]
  have hrp : readPhase conn connId EndpointKind.Client sys ro true
      = ⟨{ conn with clientBuf := conn.clientBuf ++ bs }, sys, [], [],
          false⟩ := by
    rw [← hreq]
    simp only [readPhase, if_true, handle_readable, handle_client_readable,
      hstate]
  subst he
  simp only [handle_connection_event, htok, hconn]
  rw [hrp]
  refine ⟨?_, ?_, ?_⟩ <;>
    simp [writePhase, alookup_cleanup_self]

/-- Witness for C2's amended theorem at a concrete input: a complete
request with an unsupported ATYP (`0x09`) gets its connection removed
from the table. -/
theorem C2_bad_request_witness :
    alookup 4 (handle_connection_event
        ⟨[(9, Interests.R)], [(9, 4, EndpointKind.Client)], 10,
          ⟨⟨0, 53⟩, [], 1⟩⟩
        [(4, { Conn.new 9 with state := ClientState.Request })] 9 true false
        ⟨ReadRes.ok [5, 1, 0, 9, 0, 0], true, true, true, true, true, 0⟩
        ⟨WriteRes.wouldBlock, true⟩).conns = none := by
  have h := C2_bad_request_closed_silently
      ⟨[(9, Interests.R)], [(9, 4, EndpointKind.Client)], 10,
        ⟨⟨0, 53⟩, [], 1⟩⟩
      [(4, { Conn.new 9 with state := ClientState.Request })] 9 4
      { Conn.new 9 with state := ClientState.Request }
      [5, 1, 0, 9, 0, 0]
      ⟨ReadRes.ok [5, 1, 0, 9, 0, 0], true, true, true, true, true, 0⟩
      ⟨WriteRes.wouldBlock, true⟩ _ rfl rfl rfl rfl rfl rfl (by decide)
      (by decide) (Or.inr (by decide))
  exact h.2.2
